import Mathlib

/-!
Verification development for the Top-scorers repository.

The repository is a small Python code base: a SQLModel/FastAPI score store
(src/src/db_utils.py, src/src/api.py) plus a CSV batch utility
(src/src/top_scorers.py).  We shallowly embed the relevant functions here.

Python strings are embedded as lists of characters (type Str below), and the
string operations used by the code (str.lower, str.split, str.find,
str.strip, int(), f-string formatting of an int) are given as executable
structural recursions so that every concrete run can be evaluated by the
kernel.  The SQLite table behind SQLModel is embedded as a list of rows in
storage (insertion) order together with the next fresh primary key.
-/

namespace TopScorersRepo

/-- A Python string, embedded as its list of characters. -/
abbrev Str := List Char

/-- ASCII lower-casing of one character, as done by str.lower on the ASCII
fragment these programs use. -/
def lowerChar (c : Char) : Char :=
  if 'A' ≤ c ∧ c ≤ 'Z' then Char.ofNat (c.toNat + 32) else c

/-- str.lower. -/
def lowerStr (s : Str) : Str := s.map lowerChar

/-- str.split(sep) with a one-character separator; on the empty string it
returns a list holding one empty string, as in Python. -/
def splitChar (sep : Char) : Str → List Str
  | [] => [[]]
  | c :: rest =>
    let r := splitChar sep rest
    if c == sep then [] :: r
    else
      match r with
      | [] => [[c]]
      | s :: ss => (c :: s) :: ss

/-- Does the string begin with the given sequence? -/
def beginsWith : Str → Str → Bool
  | _, [] => true
  | [], _ :: _ => false
  | c :: cs, n :: ns => c == n && beginsWith cs ns

/-- str.find(sub) >= 0, i.e. substring containment. -/
def containsSeq (needle : Str) : Str → Bool
  | [] => beginsWith [] needle
  | c :: rest => beginsWith (c :: rest) needle || containsSeq needle rest

/-- str.strip() on the whitespace characters these inputs can hold. -/
def pyStrip (s : Str) : Str :=
  ((s.dropWhile Char.isWhitespace).reverse.dropWhile Char.isWhitespace).reverse

/-- The numeric value of a decimal digit character. -/
def digitVal (c : Char) : Nat := c.toNat - 48

/-- Value of a nonempty all-digit string, most significant digit first. -/
def digitsVal (ds : Str) : Nat := ds.foldl (fun n c => 10 * n + digitVal c) 0

/-- int(s) for a decimal literal: surrounding whitespace is stripped, one
optional sign is allowed, then one or more decimal digits; anything else
raises ValueError, embedded as none. -/
def pyInt (s : Str) : Option Int :=
  let t := pyStrip s
  match t with
  | '+' :: ds => if ds ≠ [] ∧ ds.all Char.isDigit then some (digitsVal ds) else none
  | '-' :: ds => if ds ≠ [] ∧ ds.all Char.isDigit then some (-(digitsVal ds : Int)) else none
  | ds => if ds ≠ [] ∧ ds.all Char.isDigit then some (digitsVal ds) else none

/-- The character of a decimal digit. -/
def digitChar (n : Nat) : Char := Char.ofNat (48 + n % 10)

/-- Decimal digits of a natural number, least significant first; the first
argument is fuel, always called with enough of it. -/
def natDigitsAux : Nat → Nat → Str
  | 0, _ => []
  | fuel + 1, n => if n < 10 then [digitChar n] else digitChar (n % 10) :: natDigitsAux fuel (n / 10)

/-- Decimal rendering of a natural number. -/
def natToStr (n : Nat) : Str := (natDigitsAux (n + 1) n).reverse

/-- f-string rendering of a Python int. -/
def intToStr (i : Int) : Str :=
  if i < 0 then '-' :: natToStr i.natAbs else natToStr i.natAbs

/-! ## The score store (src/src/db_utils.py)

UserScoreBase carries the payload fields, UserScore is the table row with
its primary key.  The SQLite table is embedded as the list of its rows in
storage order plus the next primary key to be assigned. -/

/-- The UserScoreBase model of db_utils.py: payload of a score submission. -/
structure UserScoreBase where
  first_name : Str
  second_name : Str
  score : Int
deriving DecidableEq

/-- The UserScore table model of db_utils.py: a stored row with its id. -/
structure UserScore where
  first_name : Str
  second_name : Str
  score : Int
  id : Nat
deriving DecidableEq

/-- The UserScore table: rows in storage order, plus the next fresh id. -/
structure Store where
  rows : List UserScore
  nextId : Nat
deriving DecidableEq

/-- The WHERE clause of create_or_update_user_score and of the single-user
lookup: both names equal after lower-casing both sides. -/
def nameKeyMatches (new_user_score : UserScoreBase) (r : UserScore) : Bool :=
  lowerStr r.first_name == lowerStr new_user_score.first_name &&
  lowerStr r.second_name == lowerStr new_user_score.second_name

/-- Effect on the table of the update branch of create_or_update_user_score:
the first row satisfying the WHERE clause gets its score field overwritten
(user_scores[0].score = new_user_score.score followed by commit). -/
def setScoreOfFirstMatch (new_user_score : UserScoreBase) : List UserScore → List UserScore
  | [] => []
  | r :: rs =>
    if nameKeyMatches new_user_score r then { r with score := new_user_score.score } :: rs
    else r :: setScoreOfFirstMatch new_user_score rs

/-- create_or_update_user_score of src/src/db_utils.py: query all rows whose
lower-cased names equal the input's lower-cased names; if none, insert the
input as a new row (SQLite assigns the next id) and return it; otherwise
overwrite the score of the first row returned by the query, commit, and
return that updated row.  The older variant in src/db_models.py has the same
observable behaviour (it only splits the zero and nonzero cases into two
explicit ifs). -/
def create_or_update_user_score (new_user_score : UserScoreBase) (s : Store) :
    UserScore × Store :=
  match s.rows.filter (nameKeyMatches new_user_score) with
  | [] =>
    let inserted : UserScore :=
      { first_name := new_user_score.first_name, second_name := new_user_score.second_name,
        score := new_user_score.score, id := s.nextId }
    (inserted, { rows := s.rows ++ [inserted], nextId := s.nextId + 1 })
  | m :: _ =>
    ({ m with score := new_user_score.score },
     { s with rows := setScoreOfFirstMatch new_user_score s.rows })

/-! ## Helper lemmas about the upsert -/

theorem setScoreOfFirstMatch_decomp (new_user_score : UserScoreBase)
    (l1 : List UserScore) (m : UserScore) (l2 : List UserScore)
    (hl1 : ∀ r ∈ l1, nameKeyMatches new_user_score r = false)
    (hm : nameKeyMatches new_user_score m = true) :
    setScoreOfFirstMatch new_user_score (l1 ++ m :: l2) =
      l1 ++ { m with score := new_user_score.score } :: l2 := by
  induction l1 with
  | nil => simp [setScoreOfFirstMatch, hm]
  | cons a t ih =>
    have ha : nameKeyMatches new_user_score a = false := hl1 a (List.mem_cons_self a t)
    simp [setScoreOfFirstMatch, ha,
      ih (fun r hr => hl1 r (List.mem_cons_of_mem a hr))]

theorem filter_first_match (new_user_score : UserScoreBase)
    (l1 : List UserScore) (m : UserScore) (l2 : List UserScore)
    (hl1 : ∀ r ∈ l1, nameKeyMatches new_user_score r = false)
    (hm : nameKeyMatches new_user_score m = true) :
    (l1 ++ m :: l2).filter (nameKeyMatches new_user_score) =
      m :: l2.filter (nameKeyMatches new_user_score) := by
  rw [List.filter_append, List.filter_cons_of_pos hm]
  have h0 : l1.filter (nameKeyMatches new_user_score) = [] := by
    rw [List.filter_eq_nil_iff]
    intro a ha
    simp [hl1 a ha]
  rw [h0, List.nil_append]

theorem create_or_update_match (s : Store) (new_user_score : UserScoreBase)
    (l1 : List UserScore) (m : UserScore) (l2 : List UserScore)
    (hrows : s.rows = l1 ++ m :: l2)
    (hl1 : ∀ r ∈ l1, nameKeyMatches new_user_score r = false)
    (hm : nameKeyMatches new_user_score m = true) :
    create_or_update_user_score new_user_score s =
      ({ m with score := new_user_score.score },
       { s with rows := l1 ++ { m with score := new_user_score.score } :: l2 }) := by
  obtain ⟨rows, nid⟩ := s
  replace hrows : rows = l1 ++ m :: l2 := hrows
  subst hrows
  unfold create_or_update_user_score
  rw [show (Store.mk (l1 ++ m :: l2) nid).rows = l1 ++ m :: l2 from rfl,
    filter_first_match new_user_score l1 m l2 hl1 hm]
  simp [setScoreOfFirstMatch_decomp new_user_score l1 m l2 hl1 hm]

theorem first_match_decomp (new_user_score : UserScoreBase) (l : List UserScore)
    (h : ∃ r ∈ l, nameKeyMatches new_user_score r = true) :
    ∃ l1 m l2, l = l1 ++ m :: l2 ∧
      (∀ r ∈ l1, nameKeyMatches new_user_score r = false) ∧
      nameKeyMatches new_user_score m = true := by
  induction l with
  | nil =>
    rcases h with ⟨r, hr, _⟩
    cases hr
  | cons a t ih =>
    rcases h with ⟨r, hr, hmr⟩
    cases hcase : nameKeyMatches new_user_score a with
    | true => exact ⟨[], a, t, rfl, by simp, hcase⟩
    | false =>
      have hrt : r ∈ t := by
        rcases List.mem_cons.mp hr with h1 | h1
        · subst h1; rw [hcase] at hmr; cases hmr
        · exact h1
      rcases ih ⟨r, hrt, hmr⟩ with ⟨l1, m, l2, h1, h2, h3⟩
      refine ⟨a :: l1, m, l2, by rw [h1, List.cons_append], ?_, h3⟩
      intro x hx
      rcases List.mem_cons.mp hx with h4 | h4
      · subst h4; exact hcase
      · exact h2 x h4

theorem get_middle {α : Type} :
    ∀ (l1 : List α) (m : α) (l2 : List α) (h : l1.length < (l1 ++ m :: l2).length),
      (l1 ++ m :: l2).get ⟨l1.length, h⟩ = m
  | [], _, _, _ => rfl
  | _ :: t, m, l2, _ => get_middle t m l2 (by simp)

theorem set_middle {α : Type} :
    ∀ (l1 : List α) (m x : α) (l2 : List α),
      (l1 ++ m :: l2).set l1.length x = l1 ++ x :: l2
  | [], _, _, _ => rfl
  | a :: t, m, x, l2 => by
    show a :: (t ++ m :: l2).set t.length x = a :: (t ++ x :: l2)
    rw [set_middle t m x l2]

/-! ## Claim C1: upsert semantics -/

/-- C1.  For every upsert call on any store state: if no existing row
matches the input's (first_name, second_name) case-insensitively, the input
is inserted as a new row (with the next fresh id) and returned; if one or
more rows match, the first match in storage order has its score overwritten
with the input's score, that updated row is returned, and every other row —
in particular every further matching row — is left unchanged. -/
theorem create_or_update_user_score_spec (s : Store) (new_user_score : UserScoreBase) :
    (s.rows.filter (nameKeyMatches new_user_score) = [] →
      create_or_update_user_score new_user_score s =
        ({ first_name := new_user_score.first_name, second_name := new_user_score.second_name,
           score := new_user_score.score, id := s.nextId },
         { rows := s.rows ++
             [{ first_name := new_user_score.first_name, second_name := new_user_score.second_name,
                score := new_user_score.score, id := s.nextId }],
           nextId := s.nextId + 1 })) ∧
    (∀ l1 m l2, s.rows = l1 ++ m :: l2 →
      (∀ r ∈ l1, nameKeyMatches new_user_score r = false) →
      nameKeyMatches new_user_score m = true →
      create_or_update_user_score new_user_score s =
        ({ m with score := new_user_score.score },
         { s with rows := l1 ++ { m with score := new_user_score.score } :: l2 })) := by
  constructor
  · intro h
    unfold create_or_update_user_score
    rw [h]
  · intro l1 m l2 h1 h2 h3
    exact create_or_update_match s new_user_score l1 m l2 h1 h2 h3

/-- Witness for C1: submitting ("First","User",13) after ("first","user",25)
was stored updates the existing row in place instead of inserting a second
one, exactly as the claim's example requires. -/
theorem create_or_update_user_score_spec_witness :
    create_or_update_user_score
        { first_name := "First".toList, second_name := "User".toList, score := 13 }
        { rows := [{ first_name := "first".toList, second_name := "user".toList,
                     score := 25, id := 1 }], nextId := 2 } =
      ({ first_name := "first".toList, second_name := "user".toList, score := 13, id := 1 },
       { rows := [{ first_name := "first".toList, second_name := "user".toList,
                    score := 13, id := 1 }], nextId := 2 }) :=
  (create_or_update_user_score_spec
      { rows := [{ first_name := "first".toList, second_name := "user".toList,
                   score := 25, id := 1 }], nextId := 2 }
      { first_name := "First".toList, second_name := "User".toList, score := 13 }).2
    [] { first_name := "first".toList, second_name := "user".toList, score := 25, id := 1 } []
    rfl (by simp) (by decide)

/-! ## Claim C6: the upsert's frame condition -/

/-- C6.  Whenever some stored row matches the submission's identity key
under any case variant, the upsert rewrites the store to an in-place update
of exactly one row: only that row's score field is replaced, so its
first_name and second_name keep their originally stored casing and its id
is unchanged, every other row is untouched, the row count is unchanged (no
row added or deleted), and the next fresh id is not consumed. -/
theorem create_or_update_user_score_frame (s : Store) (new_user_score : UserScoreBase)
    (h : ∃ r ∈ s.rows, nameKeyMatches new_user_score r = true) :
    ∃ i : Fin s.rows.length,
      (create_or_update_user_score new_user_score s).2.rows =
        s.rows.set i { s.rows.get i with score := new_user_score.score } ∧
      (create_or_update_user_score new_user_score s).2.rows.length = s.rows.length ∧
      (create_or_update_user_score new_user_score s).2.nextId = s.nextId := by
  rcases first_match_decomp new_user_score s.rows h with ⟨l1, m, l2, hrows, hl1, hm⟩
  rw [create_or_update_match s new_user_score l1 m l2 hrows hl1 hm]
  rw [hrows]
  refine ⟨⟨l1.length, by simp⟩, ?_, by simp, rfl⟩
  rw [get_middle l1 m l2, set_middle l1 m _ l2]

/-- Witness for C6: a case-variant resubmission for a stored row rewrites
the store by an in-place score update at index 0. -/
theorem create_or_update_user_score_frame_witness :
    ∃ i : Fin ([{ first_name := "first".toList, second_name := "user".toList,
                  score := 25, id := 7 }] : List UserScore).length,
      (create_or_update_user_score
          { first_name := "FiRsT".toList, second_name := "USER".toList, score := 13 }
          { rows := [{ first_name := "first".toList, second_name := "user".toList,
                       score := 25, id := 7 }], nextId := 8 }).2.rows =
        ([{ first_name := "first".toList, second_name := "user".toList,
            score := 25, id := 7 }] : List UserScore).set i
          { ([{ first_name := "first".toList, second_name := "user".toList,
                score := 25, id := 7 }] : List UserScore).get i with score := 13 } ∧
      (create_or_update_user_score
          { first_name := "FiRsT".toList, second_name := "USER".toList, score := 13 }
          { rows := [{ first_name := "first".toList, second_name := "user".toList,
                       score := 25, id := 7 }], nextId := 8 }).2.rows.length =
        ([{ first_name := "first".toList, second_name := "user".toList,
            score := 25, id := 7 }] : List UserScore).length ∧
      (create_or_update_user_score
          { first_name := "FiRsT".toList, second_name := "USER".toList, score := 13 }
          { rows := [{ first_name := "first".toList, second_name := "user".toList,
                       score := 25, id := 7 }], nextId := 8 }).2.nextId = 8 :=
  create_or_update_user_score_frame
    { rows := [{ first_name := "first".toList, second_name := "user".toList,
                 score := 25, id := 7 }], nextId := 8 }
    { first_name := "FiRsT".toList, second_name := "USER".toList, score := 13 }
    ⟨{ first_name := "first".toList, second_name := "user".toList, score := 25, id := 7 },
      by simp, by decide⟩

/-! ## The service layer (src/src/api.py) -/

/-- Outcome of a FastAPI handler: a 200 body, or an HTTPException carrying a
status code and a detail string. -/
inductive ApiResponse (α : Type) where
  | ok (body : α)
  | httpError (status : Nat) (detail : Str)
deriving DecidableEq

/-- The WHERE clause of the single-user lookup. -/
def userLookupMatches (first_name second_name : Str) (r : UserScore) : Bool :=
  lowerStr r.first_name == lowerStr first_name &&
  lowerStr r.second_name == lowerStr second_name

/-- get_score_for_user of src/src/api.py: query all rows matching both names
case-insensitively; fewer than one row raises HTTPException 404 with a
message naming both inputs, more than one raises HTTPException 500 "Server
Error", otherwise the single row is returned. -/
def get_score_for_user (first_name second_name : Str) (s : Store) : ApiResponse UserScore :=
  match s.rows.filter (userLookupMatches first_name second_name) with
  | [] =>
    .httpError 404 ("No score found for first_name: ".toList ++ first_name ++
      ", second_name: ".toList ++ second_name)
  | [r] => .ok r
  | _ :: _ :: _ => .httpError 500 "Server Error".toList

/-- SQL MAX aggregate over a list of values: NULL (none) on the empty table,
otherwise the greatest value. -/
def sql_max : List Int → Option Int
  | [] => none
  | x :: xs => some (xs.foldl max x)

/-- get_highest_scoring_users of src/src/api.py: SELECT the rows whose score
equals the scalar subquery MAX(score).  When the table is empty the subquery
is NULL and the comparison selects no rows. -/
def get_highest_scoring_users (s : Store) : List UserScore :=
  match sql_max (s.rows.map (fun r => r.score)) with
  | none => []
  | some m => s.rows.filter (fun r => r.score == m)

/-- The AdminUser table model of db_utils.py; byte strings are embedded as
lists of byte values. -/
structure AdminUser where
  id : Nat
  username : Str
  password_hash : List Nat
  salt : List Nat
deriving DecidableEq

/-- Outcome of the login handler.  The code calls session.exec(...).one(),
which raises NoResultFound or MultipleResultsFound when the row count is not
exactly one; neither exception is caught anywhere in the handler, so it
escapes as an unhandled server error rather than an HTTPException. -/
inductive LoginResult where
  | ok (access_token : Str) (token_type : Str)
  | httpError (status : Nat) (detail : Str)
  | uncaughtExc (excName : Str)
deriving DecidableEq

/-- login of src/src/api.py.  The key-derivation function
hashlib.pbkdf2_hmac with sha256 and 100000 iterations is an external
primitive, passed here as the abstract function kdf (password, salt) ↦ hash;
hmac.compare_digest is equality on the derived bytes.  Note the source's
"if not admin_user" branch is dead code: .one() has already raised if no row
matched, and a returned model object is always truthy. -/
def login (username password : Str) (admins : List AdminUser)
    (kdf : Str → List Nat → List Nat) : LoginResult :=
  match admins.filter (fun a => a.username == username) with
  | [] => .uncaughtExc "NoResultFound".toList
  | [admin_user] =>
    if kdf password admin_user.salt == admin_user.password_hash then
      .ok admin_user.username "bearer".toList
    else
      .httpError 400 "Incorrect username or password".toList
  | _ :: _ :: _ => .uncaughtExc "MultipleResultsFound".toList

/-! ## Claim C7: single-user lookup -/

/-- C7.  For every single-user lookup: zero case-insensitive matches give a
404 not-found error, exactly one match returns that record with 200, and
more than one match gives a 500 server error instead of silently picking a
record. -/
theorem get_score_for_user_spec (first_name second_name : Str) (s : Store) :
    (s.rows.filter (userLookupMatches first_name second_name) = [] →
      get_score_for_user first_name second_name s =
        .httpError 404 ("No score found for first_name: ".toList ++ first_name ++
          ", second_name: ".toList ++ second_name)) ∧
    (∀ r, s.rows.filter (userLookupMatches first_name second_name) = [r] →
      get_score_for_user first_name second_name s = .ok r) ∧
    (∀ r1 r2 rest, s.rows.filter (userLookupMatches first_name second_name) = r1 :: r2 :: rest →
      get_score_for_user first_name second_name s = .httpError 500 "Server Error".toList) := by
  refine ⟨fun h => ?_, fun r h => ?_, fun r1 r2 rest h => ?_⟩ <;>
    (unfold get_score_for_user; rw [h])

/-- Witness for C7: the three branches at concrete stores — an empty store
gives 404, a singleton matching store returns its row, and a store holding a
duplicated identity key gives 500. -/
theorem get_score_for_user_spec_witness :
    get_score_for_user "Ada".toList "Lovelace".toList { rows := [], nextId := 1 } =
      .httpError 404 ("No score found for first_name: ".toList ++ "Ada".toList ++
        ", second_name: ".toList ++ "Lovelace".toList) ∧
    get_score_for_user "Ada".toList "Lovelace".toList
        { rows := [{ first_name := "ada".toList, second_name := "lovelace".toList,
                     score := 3, id := 1 }], nextId := 2 } =
      .ok { first_name := "ada".toList, second_name := "lovelace".toList, score := 3, id := 1 } ∧
    get_score_for_user "Ada".toList "Lovelace".toList
        { rows := [{ first_name := "ada".toList, second_name := "lovelace".toList,
                     score := 3, id := 1 },
                   { first_name := "ADA".toList, second_name := "LOVELACE".toList,
                     score := 4, id := 2 }], nextId := 3 } =
      .httpError 500 "Server Error".toList :=
  ⟨(get_score_for_user_spec "Ada".toList "Lovelace".toList { rows := [], nextId := 1 }).1
      (by decide),
   (get_score_for_user_spec "Ada".toList "Lovelace".toList
      { rows := [{ first_name := "ada".toList, second_name := "lovelace".toList,
                   score := 3, id := 1 }], nextId := 2 }).2.1
      { first_name := "ada".toList, second_name := "lovelace".toList, score := 3, id := 1 }
      (by decide),
   (get_score_for_user_spec "Ada".toList "Lovelace".toList
      { rows := [{ first_name := "ada".toList, second_name := "lovelace".toList,
                   score := 3, id := 1 },
                 { first_name := "ADA".toList, second_name := "LOVELACE".toList,
                   score := 4, id := 2 }], nextId := 3 }).2.2
      { first_name := "ada".toList, second_name := "lovelace".toList, score := 3, id := 1 }
      { first_name := "ADA".toList, second_name := "LOVELACE".toList, score := 4, id := 2 }
      [] (by decide)⟩

/-! ## Claim C8: the top-scorers query -/

theorem le_foldl_max : ∀ (xs : List Int) (a : Int), a ≤ xs.foldl max a
  | [], _ => le_refl _
  | x :: xs, a => le_trans (le_max_left a x) (le_foldl_max xs (max a x))

theorem mem_le_foldl_max : ∀ (xs : List Int) (a x : Int), x ∈ xs → x ≤ xs.foldl max a := by
  intro xs
  induction xs with
  | nil => intro a x h; cases h
  | cons y ys ih =>
    intro a x h
    rcases List.mem_cons.mp h with h1 | h1
    · subst h1
      exact le_trans (le_max_right a x) (le_foldl_max ys (max a x))
    · exact ih (max a y) x h1

theorem foldl_max_cases : ∀ (xs : List Int) (a : Int), xs.foldl max a = a ∨ xs.foldl max a ∈ xs := by
  intro xs
  induction xs with
  | nil => intro a; exact Or.inl rfl
  | cons y ys ih =>
    intro a
    rcases ih (max a y) with h | h
    · rcases max_choice a y with h1 | h1
      · exact Or.inl (by rw [List.foldl_cons, h, h1])
      · exact Or.inr (by rw [List.foldl_cons, h, h1]; exact List.mem_cons_self y ys)
    · exact Or.inr (List.mem_cons_of_mem y h)

/-- C8.  The top-scorers query returns exactly the rows whose score equals
the maximum score over the whole table (all tied rows included), and on an
empty store it returns the empty list rather than an error. -/
theorem get_highest_scoring_users_spec (s : Store) :
    (s.rows = [] → get_highest_scoring_users s = []) ∧
    (∀ r, r ∈ get_highest_scoring_users s ↔
      r ∈ s.rows ∧ ∀ r2 ∈ s.rows, r2.score ≤ r.score) := by
  constructor
  · intro h
    unfold get_highest_scoring_users
    rw [h]
    rfl
  · intro r
    cases hrows : s.rows with
    | nil =>
      unfold get_highest_scoring_users
      rw [hrows]
      simp [sql_max]
    | cons r0 rest =>
      unfold get_highest_scoring_users
      rw [hrows]
      have hmax : sql_max ((r0 :: rest).map (fun r => r.score)) =
          some ((rest.map (fun r => r.score)).foldl max r0.score) := rfl
      rw [hmax]
      set M := (rest.map (fun r => r.score)).foldl max r0.score with hM
      have hub : ∀ r2 ∈ r0 :: rest, r2.score ≤ M := by
        intro r2 h2
        rcases List.mem_cons.mp h2 with h3 | h3
        · subst h3; exact le_foldl_max _ _
        · exact mem_le_foldl_max _ _ _ (List.mem_map_of_mem (fun r => r.score) h3)
      have hmem : ∃ r2 ∈ r0 :: rest, r2.score = M := by
        rcases foldl_max_cases (rest.map (fun r => r.score)) r0.score with h | h
        · exact ⟨r0, List.mem_cons_self r0 rest, h.symm⟩
        · rcases List.mem_map.mp h with ⟨r2, h2, h3⟩
          exact ⟨r2, List.mem_cons_of_mem r0 h2, h3⟩
      rw [List.mem_filter]
      constructor
      · rintro ⟨h1, h2⟩
        have h3 : r.score = M := by simpa using h2
        exact ⟨h1, fun r2 hr2 => h3 ▸ hub r2 hr2⟩
      · rintro ⟨h1, h2⟩
        have h3 : r.score = M := by
          rcases hmem with ⟨r2, hr2, hs2⟩
          exact le_antisymm (hub r h1) (hs2 ▸ h2 r2 hr2)
        exact ⟨h1, by simp [h3]⟩

/-- Witness for C8: on the store of the spec's example, the row with first
name A (score 25) is returned by the query because it holds the maximum of
the three stored scores, while the score-10 row is not. -/
theorem get_highest_scoring_users_spec_witness :
    { first_name := "A".toList, second_name := "x".toList, score := 25, id := 1 } ∈
      get_highest_scoring_users
        { rows := [{ first_name := "A".toList, second_name := "x".toList, score := 25, id := 1 },
                   { first_name := "B".toList, second_name := "y".toList, score := 10, id := 2 },
                   { first_name := "C".toList, second_name := "z".toList, score := 25, id := 3 }],
          nextId := 4 } :=
  ((get_highest_scoring_users_spec
      { rows := [{ first_name := "A".toList, second_name := "x".toList, score := 25, id := 1 },
                 { first_name := "B".toList, second_name := "y".toList, score := 10, id := 2 },
                 { first_name := "C".toList, second_name := "z".toList, score := 25, id := 3 }],
        nextId := 4 }).2
    { first_name := "A".toList, second_name := "x".toList, score := 25, id := 1 }).mpr
    (by refine ⟨by simp, ?_⟩; intro r2 h2; fin_cases h2 <;> simp)

/-! ## Claim C4: the login endpoint -/

/-- C4 (code bug).  With one provisioned admin whose stored hash is the kdf
of the right password: a wrong password for an existing username does get
the uniform 400 error, and the right password gets a 200 token — but a
username that matches no row makes session.exec(...).one() raise
NoResultFound, which no handler catches, so the request ends in an unhandled
server exception (HTTP 500) instead of the 400 error the claim requires.
The kdf used here sends the password "admin" with salt [9] to the stored
hash [1, 2] and every other input to [0]. -/
theorem login_unknown_username_bug :
    login "nobody".toList "admin".toList
        [{ id := 1, username := "admin".toList, password_hash := [1, 2], salt := [9] }]
        (fun p s => if p == "admin".toList ∧ s == [9] then [1, 2] else [0]) =
      .uncaughtExc "NoResultFound".toList ∧
    (.uncaughtExc "NoResultFound".toList : LoginResult) ≠
      .httpError 400 "Incorrect username or password".toList ∧
    login "admin".toList "admin".toList
        [{ id := 1, username := "admin".toList, password_hash := [1, 2], salt := [9] }]
        (fun p s => if p == "admin".toList ∧ s == [9] then [1, 2] else [0]) =
      .ok "admin".toList "bearer".toList ∧
    login "admin".toList "wrong".toList
        [{ id := 1, username := "admin".toList, password_hash := [1, 2], salt := [9] }]
        (fun p s => if p == "admin".toList ∧ s == [9] then [1, 2] else [0]) =
      .httpError 400 "Incorrect username or password".toList := by
  refine ⟨by decide, by decide, by decide, by decide⟩

/-! ## Batch ingest (src/src/top_scorers.py) -/

/-- The two skip checks at the top of find_highest's loop: a line equal to
the empty string, or a line whose lower-casing contains the substring
"first name" (line.lower().find("first name") >= 0). -/
def skipsLine (line : Str) : Bool :=
  line == [] || containsSeq "first name".toList (lowerStr line)

/-- The f-string "{details[0]} {details[1]}" appended to highest_scorers. -/
def scorerEntry (u : UserScoreBase) : Str := u.first_name ++ ' ' :: u.second_name

/-- Parsing of one non-skipped line: details = line.split(","), then the
row is built from details[0], details[1] and int(details[2]).  An IndexError
(fewer than three fields) or ValueError (malformed integer) is embedded as
none; it aborts the whole batch. -/
def parseRow (line : Str) : Option UserScoreBase :=
  match splitChar ',' line with
  | d0 :: d1 :: d2 :: _ =>
    match pyInt d2 with
    | some n => some { first_name := d0, second_name := d1, score := n }
    | none => none
  | _ => none

/-- The loop of find_highest over the remaining lines, carrying the store
and the two accumulators highest_scorers and highest_score.  Each parsed
row is upserted into the store, then compared with the running maximum:
equal appends the name, greater resets the list to that name alone and
raises the maximum, smaller changes nothing. -/
def find_highest_go (store : Store) (highest_scorers : List Str) (highest_score : Int) :
    List Str → Option ((List Str × Int) × Store)
  | [] => some ((highest_scorers, highest_score), store)
  | line :: rest =>
    if skipsLine line then find_highest_go store highest_scorers highest_score rest
    else
      match parseRow line with
      | none => none
      | some u =>
        let store2 := (create_or_update_user_score u store).2
        if u.score == highest_score then
          find_highest_go store2 (highest_scorers ++ [scorerEntry u]) highest_score rest
        else if u.score > highest_score then
          find_highest_go store2 [scorerEntry u] u.score rest
        else
          find_highest_go store2 highest_scorers highest_score rest

/-- find_highest of src/src/top_scorers.py: split the input on newlines and
run the loop with an empty name list and running maximum 0.  The result also
carries the final store, and is none when some row raises. -/
def find_highest (input : Str) (store : Store) : Option ((List Str × Int) × Store) :=
  find_highest_go store [] 0 (splitChar '\n' input)

/-- One step of the reduction described by the specification, acting on the
pair (name list, running maximum). -/
def reduceStep (acc : List Str × Int) (u : UserScoreBase) : List Str × Int :=
  if u.score == acc.2 then (acc.1 ++ [scorerEntry u], acc.2)
  else if u.score > acc.2 then ([scorerEntry u], u.score)
  else acc

/-- Parse every line of a list, failing if any line fails. -/
def parseRowsAll : List Str → Option (List UserScoreBase)
  | [] => some []
  | l :: ls =>
    match parseRow l with
    | none => none
    | some u =>
      match parseRowsAll ls with
      | none => none
      | some us => some (u :: us)

/-- The batch's parsed rows: every line survives the skip checks is parsed. -/
def batchRows (input : Str) : Option (List UserScoreBase) :=
  parseRowsAll ((splitChar '\n' input).filter (fun l => ! skipsLine l))

theorem reduceStep_eq (scorers : List Str) (best : Int) (u : UserScoreBase) :
    reduceStep (scorers, best) u =
      if u.score == best then (scorers ++ [scorerEntry u], best)
      else if u.score > best then ([scorerEntry u], u.score)
      else (scorers, best) := rfl

theorem find_highest_go_fold :
    ∀ (lines : List Str) (store : Store) (scorers : List Str) (best : Int)
      (rows : List UserScoreBase),
      parseRowsAll (lines.filter (fun l => ! skipsLine l)) = some rows →
      ∃ store2, find_highest_go store scorers best lines =
        some (rows.foldl reduceStep (scorers, best), store2) := by
  intro lines
  induction lines with
  | nil =>
    intro store scorers best rows h
    simp [parseRowsAll] at h
    subst h
    exact ⟨store, rfl⟩
  | cons line rest ih =>
    intro store scorers best rows h
    cases hskip : skipsLine line with
    | true =>
      rw [List.filter_cons_of_neg (by simp [hskip])] at h
      rcases ih store scorers best rows h with ⟨store2, hgo⟩
      exact ⟨store2, by simp [find_highest_go, hskip, hgo]⟩
    | false =>
      rw [List.filter_cons_of_pos (by simp [hskip])] at h
      cases hp : parseRow line with
      | none => simp [parseRowsAll, hp] at h
      | some u =>
        cases hr : parseRowsAll (rest.filter (fun l => ! skipsLine l)) with
        | none => simp [parseRowsAll, hp, hr] at h
        | some us =>
          have hrows : rows = u :: us := by
            simp [parseRowsAll, hp, hr] at h
            exact h.symm
          subst hrows
          rw [List.foldl_cons, reduceStep_eq]
          by_cases h1 : (u.score == best) = true
          · rcases ih ((create_or_update_user_score u store).2)
              (scorers ++ [scorerEntry u]) best us hr with ⟨store2, hgo⟩
            exact ⟨store2, by simp [find_highest_go, hskip, hp, h1, hgo]⟩
          · by_cases h2 : u.score > best
            · rcases ih ((create_or_update_user_score u store).2)
                [scorerEntry u] u.score us hr with ⟨store2, hgo⟩
              exact ⟨store2, by simp [find_highest_go, hskip, hp, h1, h2, hgo]⟩
            · rcases ih ((create_or_update_user_score u store).2)
                scorers best us hr with ⟨store2, hgo⟩
              exact ⟨store2, by simp [find_highest_go, hskip, hp, h1, h2, hgo]⟩

/-! ## Claim C2: the batch reduction -/

theorem foldl_reduceStep_all_neg :
    ∀ (rows : List UserScoreBase), (∀ u ∈ rows, u.score < 0) →
      rows.foldl reduceStep ([], 0) = ([], 0) := by
  intro rows
  induction rows with
  | nil => intro _; rfl
  | cons u us ih =>
    intro h
    have hu : u.score < 0 := h u (List.mem_cons_self u us)
    have h1 : (u.score == (0 : Int)) = false := by
      rw [beq_eq_false_iff_ne]
      omega
    have h2 : ¬(u.score > (0 : Int)) := by omega
    rw [List.foldl_cons, reduceStep_eq, h1]
    simp only [Bool.false_eq_true, if_false, if_neg h2]
    exact ih (fun v hv => h v (List.mem_cons_of_mem u hv))

/-- C2.  find_highest computes its reported pair by a left-to-right
reduction over the batch's non-skipped rows starting from the empty name
list and running maximum 0: an equal score appends the row's name, a
greater score resets the name list to that single name and raises the
maximum, a smaller score changes nothing.  Consequently a batch whose rows
all carry negative scores reports the empty name list with maximum 0. -/
theorem find_highest_reduction :
    (∀ (input : Str) (store : Store) (rows : List UserScoreBase),
      batchRows input = some rows →
      ∃ store2, find_highest input store = some (rows.foldl reduceStep ([], 0), store2)) ∧
    (∀ (input : Str) (store : Store) (rows : List UserScoreBase),
      batchRows input = some rows → (∀ u ∈ rows, u.score < 0) →
      ∃ store2, find_highest input store = some (([], 0), store2)) := by
  constructor
  · intro input store rows h
    exact find_highest_go_fold (splitChar '\n' input) store [] 0 rows h
  · intro input store rows h hneg
    rcases find_highest_go_fold (splitChar '\n' input) store [] 0 rows h with ⟨store2, hgo⟩
    rw [foldl_reduceStep_all_neg rows hneg] at hgo
    exact ⟨store2, hgo⟩

/-- Witness for C2: a two-row batch of negative scores reduces to the empty
name list with reported maximum 0. -/
theorem find_highest_reduction_witness :
    ∃ store2, find_highest "A,B,-5\nC,D,-3".toList { rows := [], nextId := 1 } =
      some (([], 0), store2) :=
  (find_highest_reduction).2 "A,B,-5\nC,D,-3".toList { rows := [], nextId := 1 }
    [{ first_name := "A".toList, second_name := "B".toList, score := -5 },
     { first_name := "C".toList, second_name := "D".toList, score := -3 }]
    (by decide) (by decide)

/-! ## Claim C5: which rows are skipped -/

/-- The loop body of find_highest with the two skip checks removed: every
line handed to it is parsed, upserted and fed to the reduction. -/
def processRows (store : Store) (highest_scorers : List Str) (highest_score : Int) :
    List Str → Option ((List Str × Int) × Store)
  | [] => some ((highest_scorers, highest_score), store)
  | line :: rest =>
    match parseRow line with
    | none => none
    | some u =>
      let store2 := (create_or_update_user_score u store).2
      if u.score == highest_score then
        processRows store2 (highest_scorers ++ [scorerEntry u]) highest_score rest
      else if u.score > highest_score then
        processRows store2 [scorerEntry u] u.score rest
      else
        processRows store2 highest_scorers highest_score rest

theorem find_highest_go_eq_processRows :
    ∀ (lines : List Str) (store : Store) (scorers : List Str) (best : Int),
      find_highest_go store scorers best lines =
        processRows store scorers best (lines.filter (fun l => ! skipsLine l)) := by
  intro lines
  induction lines with
  | nil => intro store scorers best; rfl
  | cons line rest ih =>
    intro store scorers best
    cases hskip : skipsLine line with
    | true =>
      rw [List.filter_cons_of_neg (by simp [hskip])]
      simp [find_highest_go, hskip, ih]
    | false =>
      rw [List.filter_cons_of_pos (by simp [hskip])]
      cases hp : parseRow line with
      | none => simp [find_highest_go, processRows, hskip, hp]
      | some u => simp [find_highest_go, processRows, hskip, hp, ih]

/-- C5 counterexample.  The claim allows at most one skipped header row, so
on the batch whose second row is the data row "Anna first name,B,5" it
requires that row to be parsed and fed to the reduction, reporting
(["Anna first name B"], 5).  The code instead skips every row containing
the phrase — both rows here — and reports ([], 0). -/
theorem find_highest_header_counterexample :
    (find_highest "first name,second name,score\nAnna first name,B,5".toList
        { rows := [], nextId := 1 }).map (fun x => x.1) =
      some (([], 0)) ∧
    some (([] : List Str), (0 : Int)) ≠
      some ([("Anna first name B".toList : Str)], (5 : Int)) := by
  exact ⟨by decide, by decide⟩

/-- C5 (amended).  find_highest skips exactly these rows before parsing:
every row equal to the empty string (with no whitespace trimming), and
every row — not only a single header — whose lower-casing contains the
substring "first name" anywhere in the line; every other row is parsed,
upserted and fed to the reduction.  In particular a table with no header
row and no such phrase in its data has all of its rows processed. -/
theorem find_highest_skip_rule (input : Str) (store : Store) :
    find_highest input store =
      processRows store [] 0
        ((splitChar '\n' input).filter
          (fun line => ! (line == [] || containsSeq "first name".toList (lowerStr line)))) :=
  find_highest_go_eq_processRows (splitChar '\n' input) store [] 0

/-! ## Claim C10: totality of find_highest -/

/-- Does a line satisfy what parsing needs: at least three comma-separated
fields, the third a well-formed integer literal? -/
def rowOK (line : Str) : Bool :=
  match splitChar ',' line with
  | _ :: _ :: d2 :: _ => (pyInt d2).isSome
  | _ => false

theorem parseRow_some_of_rowOK (line : Str) (h : rowOK line = true) :
    ∃ u, parseRow line = some u := by
  unfold rowOK at h
  unfold parseRow
  rcases hs : splitChar ',' line with _ | ⟨d0, _ | ⟨d1, _ | ⟨d2, drest⟩⟩⟩
  · rw [hs] at h; simp at h
  · rw [hs] at h; simp at h
  · rw [hs] at h; simp at h
  · rw [hs] at h
    simp at h
    rcases Option.isSome_iff_exists.mp h with ⟨n, hp⟩
    exact ⟨{ first_name := d0, second_name := d1, score := n }, by simp [hp]⟩

theorem parseRow_none_of_short (line : Str) (h : (splitChar ',' line).length < 3) :
    parseRow line = none := by
  unfold parseRow
  rcases hs : splitChar ',' line with _ | ⟨d0, _ | ⟨d1, _ | ⟨d2, drest⟩⟩⟩
  · rfl
  · rfl
  · rfl
  · rw [hs] at h
    simp only [List.length_cons] at h
    omega

theorem find_highest_go_total :
    ∀ (lines : List Str) (store : Store) (scorers : List Str) (best : Int),
      (∀ line ∈ lines, skipsLine line = false → rowOK line = true) →
      ∃ result, find_highest_go store scorers best lines = some result := by
  intro lines
  induction lines with
  | nil => intro store scorers best _; exact ⟨_, rfl⟩
  | cons line rest ih =>
    intro store scorers best h
    have hrest : ∀ l ∈ rest, skipsLine l = false → rowOK l = true :=
      fun l hl => h l (List.mem_cons_of_mem line hl)
    cases hskip : skipsLine line with
    | true =>
      rcases ih store scorers best hrest with ⟨res, hres⟩
      exact ⟨res, by simp [find_highest_go, hskip, hres]⟩
    | false =>
      rcases parseRow_some_of_rowOK line (h line (List.mem_cons_self _ _) hskip)
        with ⟨u, hu⟩
      by_cases h1 : (u.score == best) = true
      · rcases ih ((create_or_update_user_score u store).2)
          (scorers ++ [scorerEntry u]) best hrest with ⟨res, hres⟩
        exact ⟨res, by simp [find_highest_go, hskip, hu, h1, hres]⟩
      · by_cases h2 : u.score > best
        · rcases ih ((create_or_update_user_score u store).2)
            [scorerEntry u] u.score hrest with ⟨res, hres⟩
          exact ⟨res, by simp [find_highest_go, hskip, hu, h1, h2, hres]⟩
        · rcases ih ((create_or_update_user_score u store).2)
            scorers best hrest with ⟨res, hres⟩
          exact ⟨res, by simp [find_highest_go, hskip, hu, h1, h2, hres]⟩

theorem find_highest_go_abort :
    ∀ (lines : List Str) (store : Store) (scorers : List Str) (best : Int),
      (∃ line ∈ lines, skipsLine line = false ∧ (splitChar ',' line).length < 3) →
      find_highest_go store scorers best lines = none := by
  intro lines
  induction lines with
  | nil =>
    rintro store scorers best ⟨l, hl, _⟩
    cases hl
  | cons line rest ih =>
    rintro store scorers best ⟨l, hl, hskipl, hshort⟩
    rcases List.mem_cons.mp hl with h1 | h1
    · subst h1
      simp [find_highest_go, hskipl, parseRow_none_of_short _ hshort]
    · have hrest : ∀ (store : Store) (scorers : List Str) (best : Int),
          find_highest_go store scorers best rest = none :=
        fun store scorers best => ih store scorers best ⟨l, h1, hskipl, hshort⟩
      cases hskip : skipsLine line with
      | true => simp [find_highest_go, hskip, hrest]
      | false =>
        cases hp : parseRow line with
        | none => simp [find_highest_go, hskip, hp]
        | some u =>
          by_cases hc1 : (u.score == best) = true
          · simp [find_highest_go, hskip, hp, hc1, hrest]
          · by_cases hc2 : u.score > best
            · simp [find_highest_go, hskip, hp, hc1, hc2, hrest]
            · simp [find_highest_go, hskip, hp, hc1, hc2, hrest]

/-- C10.  find_highest is total exactly under the precondition that every
non-skipped line splits on commas into at least three fields whose third
parses as an integer: under the precondition the run produces a result (no
error branch is reachable), while any batch containing a non-empty,
non-header line with fewer than three comma-separated fields — for example
a whitespace-only line — makes the whole batch abort with an exception. -/
theorem find_highest_totality :
    (∀ (input : Str) (store : Store),
      (∀ line ∈ splitChar '\n' input, skipsLine line = false → rowOK line = true) →
      ∃ result, find_highest input store = some result) ∧
    (∀ (input : Str) (store : Store),
      (∃ line ∈ splitChar '\n' input, skipsLine line = false ∧
        (splitChar ',' line).length < 3) →
      find_highest input store = none) :=
  ⟨fun input store h => find_highest_go_total (splitChar '\n' input) store [] 0 h,
   fun input store h => find_highest_go_abort (splitChar '\n' input) store [] 0 h⟩

/-- Witness for C10: a well-formed one-row batch runs to completion, and
appending a whitespace-only line makes the same batch abort. -/
theorem find_highest_totality_witness :
    (∃ result, find_highest "Mark,Jobs,38".toList { rows := [], nextId := 1 } = some result) ∧
    find_highest "Mark,Jobs,38\n ".toList { rows := [], nextId := 1 } = none :=
  ⟨(find_highest_totality).1 "Mark,Jobs,38".toList { rows := [], nextId := 1 } (by decide),
   (find_highest_totality).2 "Mark,Jobs,38\n ".toList { rows := [], nextId := 1 } (by decide)⟩

/-! ## The driver routine handle (src/src/top_scorers.py)

handle reads sys.argv[1], loads that file, runs find_highest, composes the
output text, and either writes it to sys.argv[2] or prints it.  The
operating system is embedded as an environment: argv, the outcome of
opening a path for reading (its content, FileNotFoundError, or
PermissionError — the first try block catches only FileNotFoundError and
IndexError), and whether opening a path for writing succeeds (a false value
is a PermissionError, the exception the second try block catches besides
IndexError).  A none result is an exception that no handler catches. -/

/-- Outcome of open(path, "r") followed by read(). -/
inductive ReadResult where
  | found (content : Str)
  | notFound
  | permissionDenied

/-- The process environment seen by handle. -/
structure Env where
  argv : List Str
  readFile : Str → ReadResult
  writeOK : Str → Bool

/-- Observable outcome of a handle run: print-and-exit with a status code,
a file written (nothing printed), or output printed to stdout. -/
inductive HandleResult where
  | exitWithMessage (printed : Str) (code : Nat)
  | wroteFile (path : Str) (contents : Str)
  | printedOutput (printed : Str)
deriving DecidableEq

/-- The name-joining loop of handle: for each name append it, and append a
separating space only while counter differs from the total length — but
counter starts at 0 and is bumped once per appended space, so the test is
true on every iteration, the last included. -/
def output_loop : List Str → Nat → Nat → Str → Str
  | [], _, _, out => out
  | name :: rest, counter, len, out =>
    let out2 := out ++ name
    if counter ≠ len then output_loop rest (counter + 1) len (out2 ++ [' '])
    else output_loop rest counter len out2

/-- Lexicographic comparison of strings by code point, the order used by
Python's sorted on str. -/
def strLE : Str → Str → Bool
  | [], _ => true
  | _ :: _, [] => false
  | a :: as, b :: bs => if a == b then strLE as bs else decide (a < b)

/-- Insert into a sorted list. -/
def insertSorted (x : Str) : List Str → List Str
  | [] => [x]
  | y :: ys => if strLE x y then x :: y :: ys else y :: insertSorted x ys

/-- sorted(highest_users): ascending lexicographic order. -/
def sortStrs (l : List Str) : List Str := l.foldr insertSorted []

/-- handle of src/src/top_scorers.py over the embedded environment. -/
def handle (env : Env) (store : Store) : Option (HandleResult × Store) :=
  match env.argv.get? 1 with
  | none =>
    some (.exitWithMessage "Invalid Arguments: Please provide an input file".toList 1, store)
  | some input_file =>
    match env.readFile input_file with
    | .notFound =>
      some (.exitWithMessage "Invalid Arguments: Please provide an input file".toList 1, store)
    | .permissionDenied => none
    | .found input =>
      match find_highest input store with
      | none => none
      | some ((highest_users, highest_score), store2) =>
        let sorted_users := sortStrs highest_users
        let output := output_loop sorted_users 0 sorted_users.length []
        let output2 := output ++ '\n' :: "Score: ".toList ++ intToStr highest_score
        match env.argv.get? 2 with
        | none => some (.printedOutput output2, store2)
        | some output_file =>
          if env.writeOK output_file then some (.wroteFile output_file output2, store2)
          else some (.printedOutput output2, store2)

/-! ## Claim C3: the composed driver output -/

/-- C3 (code bug).  On a successful run whose batch reports
(["Sarah Pieterson"], 35) — the exact scenario of the repository's own test
test_script_reads_input_from_arg — the code prints
"Sarah Pieterson \nScore: 35", with a space after the last name: the
joining loop's condition counter != len(sorted_users) also fires on the
final name.  The claim (and the test, which asserts stdout
"Sarah Pieterson\nScore: 35\n") requires the names joined by single
separating spaces with no trailing space, so the two texts differ. -/
theorem handle_trailing_space_bug :
    handle
      { argv := ["top_scorers.py".toList, "in.csv".toList],
        readFile := fun p =>
          if p == "in.csv".toList then .found "Sarah,Pieterson,35".toList else .notFound,
        writeOK := fun _ => true }
      { rows := [], nextId := 1 } =
      some (.printedOutput "Sarah Pieterson \nScore: 35".toList,
        { rows := [{ first_name := "Sarah".toList, second_name := "Pieterson".toList,
                     score := 35, id := 1 }], nextId := 2 }) ∧
    ("Sarah Pieterson \nScore: 35".toList : Str) ≠ "Sarah Pieterson\nScore: 35".toList := by
  exact ⟨by decide, by decide⟩

/-! ## Claim C9: the driver's invalid-arguments handling -/

/-- C9 counterexample.  An input file that exists but is unreadable
(permission denied) does not produce the fixed diagnostic: open raises
PermissionError, which the first try block — catching only
FileNotFoundError and IndexError — lets escape, so the run dies with an
uncaught exception instead of the claimed message-and-exit-1 outcome. -/
theorem handle_unreadable_counterexample :
    handle
      { argv := ["top_scorers.py".toList, "locked.csv".toList],
        readFile := fun _ => .permissionDenied,
        writeOK := fun _ => true }
      { rows := [], nextId := 1 } = none ∧
    (none : Option (HandleResult × Store)) ≠
      some (.exitWithMessage "Invalid Arguments: Please provide an input file".toList 1,
        { rows := [], nextId := 1 }) := by
  exact ⟨by decide, by decide⟩

/-- C9 (amended).  If the input-path argument is missing, or the input file
does not exist, handle prints exactly "Invalid Arguments: Please provide an
input file" and exits with code 1, without running find_highest (the store
is returned untouched and the outcome never depends on any file content);
an existing but unreadable (permission-denied) input file instead escapes
as an uncaught exception. -/
theorem handle_invalid_args (env : Env) (store : Store) :
    (env.argv.get? 1 = none →
      handle env store =
        some (.exitWithMessage "Invalid Arguments: Please provide an input file".toList 1,
          store)) ∧
    (∀ path, env.argv.get? 1 = some path → env.readFile path = .notFound →
      handle env store =
        some (.exitWithMessage "Invalid Arguments: Please provide an input file".toList 1,
          store)) ∧
    (∀ path, env.argv.get? 1 = some path → env.readFile path = .permissionDenied →
      handle env store = none) := by
  refine ⟨fun h => ?_, fun path h1 h2 => ?_, fun path h1 h2 => ?_⟩
  · unfold handle; rw [h]
  · unfold handle; simp only [h1, h2]
  · unfold handle; simp only [h1, h2]

/-- Witness for C9: a run with no input argument, a run naming a
nonexistent file, and a run naming a permission-denied file. -/
theorem handle_invalid_args_witness :
    handle { argv := ["top_scorers.py".toList], readFile := fun _ => .notFound,
             writeOK := fun _ => true } { rows := [], nextId := 1 } =
      some (.exitWithMessage "Invalid Arguments: Please provide an input file".toList 1,
        { rows := [], nextId := 1 }) ∧
    handle { argv := ["top_scorers.py".toList, "missing.csv".toList],
             readFile := fun _ => .notFound, writeOK := fun _ => true }
        { rows := [], nextId := 1 } =
      some (.exitWithMessage "Invalid Arguments: Please provide an input file".toList 1,
        { rows := [], nextId := 1 }) ∧
    handle { argv := ["top_scorers.py".toList, "locked2.csv".toList],
             readFile := fun _ => .permissionDenied, writeOK := fun _ => true }
        { rows := [], nextId := 1 } = none :=
  ⟨(handle_invalid_args
      { argv := ["top_scorers.py".toList], readFile := fun _ => .notFound,
        writeOK := fun _ => true } { rows := [], nextId := 1 }).1 rfl,
   (handle_invalid_args
      { argv := ["top_scorers.py".toList, "missing.csv".toList],
        readFile := fun _ => .notFound, writeOK := fun _ => true }
      { rows := [], nextId := 1 }).2.1 "missing.csv".toList rfl rfl,
   (handle_invalid_args
      { argv := ["top_scorers.py".toList, "locked2.csv".toList],
        readFile := fun _ => .permissionDenied, writeOK := fun _ => true }
      { rows := [], nextId := 1 }).2.2 "locked2.csv".toList rfl rfl⟩
